import Mathlib

/-!
# Verification of the hostel leave / gate-credential core

Shallow embedding of the leave-lifecycle, credential codec, gate-scan
validator and presence projection of the `hostel-qr` backend
(`backened/src/controllers/leaveController.js`,
`backened/src/controllers/qrController.js`,
`backened/src/utils/helpers.js`), against the relations declared in the
SQL schema.

Modelling conventions:
* Calendar dates (`DATE` columns, `from_date`, `to_date`) are integer day
  numbers; instants (`TIMESTAMP`s, `new Date()` readings) are integer
  milliseconds since the epoch, with `dayStartMs d = d * 86400000` the
  midnight instant of day `d` (mirroring `new Date(dateString)`).
* Each request observes a single clock instant `now`; the several
  `new Date()` calls inside one handler are modelled as reading the same
  instant.
* SQL rows become structures, tables become lists kept in insertion
  order, `ORDER BY scan_timestamp DESC LIMIT 1` becomes a fold selecting
  the maximal timestamp (later row wins ties), and `INSERT` appends.
* `sha256(JSON.stringify(data) + secret)` (`generateHash` in
  `helpers.js`) is modelled as an ideal collision-free keyed hash: a free
  constructor over the serialized fields and the secret, injective by
  construction (the standard symbolic-cryptography idealisation).
* Fallible handlers return `Except`; the notification inserts, which
  touch only the `notifications` table, are elided since no modelled
  relation reads them.
-/

/-- `leave_applications.status`: PENDING, APPROVED_DW, APPROVED_PRINCIPAL,
REJECTED (EXPIRED is declared in the schema comment but never written). -/
inductive LeaveStatus where
  | PENDING
  | APPROVED_DW
  | APPROVED_PRINCIPAL
  | REJECTED
  | EXPIRED
  deriving Repr, DecidableEq

/-- `emergency_extensions.status`: PENDING, APPROVED, REJECTED. -/
inductive ExtStatus where
  | PENDING
  | APPROVED
  | REJECTED
  deriving Repr, DecidableEq

/-- `gate_logs.action_type`: EXIT or ENTRY. -/
inductive ActionType where
  | EXIT
  | ENTRY
  deriving Repr, DecidableEq

/-- `gate_logs.validation_status`. -/
inductive VStatus where
  | VALID
  | INVALID
  | EXPIRED
  | UNAUTHORIZED
  | MANUAL
  deriving Repr, DecidableEq

/-- Day number to the midnight instant of that day, in ms
(`new Date(dateString)` for a plain date string). -/
def dayStartMs (d : Int) : Int := d * 86400000

/-- `toDate.setHours(23, 59, 59)` applied to the midnight instant of day
`d`: the 23:59:59.000 instant of that day, in ms. -/
def endOfDayMs (d : Int) : Int := d * 86400000 + 86399000

/-- Row of `students` (the columns the core reads). -/
structure Student where
  id : Nat
  user_id : Nat
  college_id : String
  student_name : String
  parent_id : Option Nat
  deriving Repr, DecidableEq

/-- Row of `staff` (the columns the core reads). -/
structure StaffMember where
  id : Nat
  user_id : Nat
  deriving Repr, DecidableEq

/-- Row of `parents` (the columns the core reads). -/
structure ParentRec where
  id : Nat
  user_id : Nat
  deriving Repr, DecidableEq

/-- The three binding fields covered by the integrity tag, in the field
order of the object literal passed to `generateHash`
(`leaveId`, `studentId`, `fromDate`). -/
structure HashInput where
  leaveId : Nat
  studentId : Nat
  fromDate : String
  deriving Repr, DecidableEq

/-- Output of `generateHash(data)` =
`sha256(JSON.stringify(data) + JWT_SECRET)`, modelled as an ideal
collision-free keyed hash: a free constructor over the serialized input
and the secret. -/
structure Digest where
  input : HashInput
  secret : String
  deriving Repr, DecidableEq

/-- `generateHash` from `helpers.js`: keyed hash over the JSON
serialization of `data` (ideal-hash model, see `Digest`). -/
def generateHash (data : HashInput) (secret : String) : Digest :=
  ⟨data, secret⟩

/-- The parsed claim set of a QR token, as built by `generateQRCodeData`:
field for field the object serialized into the token. `fromDate` and
`toDate` are the serialized date strings; `validFrom` mirrors the
`qr_code_expires_at` value copied into the token. -/
structure QRPayload where
  leaveId : Nat
  studentId : Nat
  collegeId : String
  studentName : String
  fromDate : String
  toDate : String
  validFrom : Option Int
  hash : Digest
  deriving Repr, DecidableEq

/-- A raw scanned token: either a string `JSON.parse` rejects, or a
parsed claim set. -/
inductive QRToken where
  | malformed (raw : String)
  | parsed (data : QRPayload)
  deriving Repr, DecidableEq

/-- Serialization of a day-number date into the string embedded in the
token (the JSON form of the `DATE` value). -/
def dateStr (d : Int) : String := toString d

/-- Row of `leave_applications`. -/
structure LeaveApplication where
  id : Nat
  student_id : Nat
  leave_type : String
  from_date : Int
  to_date : Int
  reason : String
  destination : Option String
  contact_during_leave : Option String
  status : LeaveStatus
  approved_by_dw : Option Nat
  approved_by_principal : Option Nat
  dw_remarks : Option String
  principal_remarks : Option String
  dw_approved_at : Option Int
  principal_approved_at : Option Int
  qr_code_generated : Bool
  qr_code_data : Option QRPayload
  qr_code_expires_at : Option Int
  deriving Repr, DecidableEq

/-- Row of `emergency_extensions`. -/
structure EmergencyExtension where
  id : Nat
  leave_application_id : Nat
  requested_by_parent : Nat
  extended_to_date : Int
  reason : String
  status : ExtStatus
  approved_by : Option Nat
  remarks : Option String
  approved_at : Option Int
  deriving Repr, DecidableEq

/-- Row of `gate_logs` (append-only; the auto-increment id is the list
position and is not modelled as a field). -/
structure GateLogEntry where
  student_id : Option Nat
  leave_application_id : Option Nat
  action_type : ActionType
  scanned_by : Nat
  scan_timestamp : Int
  qr_code_data : Option QRToken
  validation_status : VStatus
  validation_message : String
  location : String
  deriving Repr, DecidableEq

/-- The database relations the core reads and writes. -/
structure DB where
  students : List Student
  staff : List StaffMember
  parents : List ParentRec
  leaves : List LeaveApplication
  extensions : List EmergencyExtension
  gate_logs : List GateLogEntry
  deriving Repr, DecidableEq

/-- `SELECT la.* FROM leave_applications la JOIN students s ON
la.student_id = s.id WHERE la.id = ? AND s.id = ?` (the lookup inside
`validateQRCode`). -/
def findLeaveJoin (db : DB) (leaveId studentId : Nat) : Option LeaveApplication :=
  if (db.students.find? (fun s => decide (s.id = studentId))).isSome then
    db.leaves.find? (fun l => decide (l.id = leaveId ∧ l.student_id = studentId))
  else none

/-- Result shape of `validateQRCode`: `{valid, message, leave?}`. -/
structure ValidationResult where
  valid : Bool
  message : String
  leave : Option LeaveApplication
  deriving Repr, DecidableEq

/-- `validateQRCode` from `helpers.js`: parse, recompute and compare the
integrity tag, load the (application, student) join, then check approval
status, the `qr_code_expires_at` lower bound and the end-of-day upper
bound of `to_date`, in that order. A NULL `qr_code_expires_at` reads as
the epoch (`new Date(null)`). -/
def validateQRCode (db : DB) (now : Int) (secret : String) (t : QRToken) :
    ValidationResult :=
  match t with
  | .malformed _ => ⟨false, "Invalid QR code format", none⟩
  | .parsed data =>
    let expectedHash := generateHash ⟨data.leaveId, data.studentId, data.fromDate⟩ secret
    if data.hash ≠ expectedHash then
      ⟨false, "QR code tampered or invalid", none⟩
    else
      match findLeaveJoin db data.leaveId data.studentId with
      | none => ⟨false, "Leave application not found", none⟩
      | some leave =>
        if leave.status ≠ .APPROVED_DW ∧ leave.status ≠ .APPROVED_PRINCIPAL then
          ⟨false, "Leave not approved", none⟩
        else
          let validFrom := leave.qr_code_expires_at.getD 0
          if now < validFrom then
            ⟨false, "QR code not yet valid. Valid from " ++ toString validFrom, none⟩
          else if now > endOfDayMs leave.to_date then
            ⟨false, "Leave period expired", none⟩
          else
            ⟨true, "Valid QR code", some leave⟩

/-- `SELECT action_type FROM gate_logs WHERE student_id = ? AND
leave_application_id = ? ORDER BY scan_timestamp DESC LIMIT 1`: the
matching row with the greatest timestamp (later insertion wins ties). -/
def lastLogFor (logs : List GateLogEntry) (sid aid : Nat) : Option GateLogEntry :=
  (logs.filter
    (fun g => decide (g.student_id = some sid ∧ g.leave_application_id = some aid))).foldl
    (fun acc g =>
      match acc with
      | none => some g
      | some b => if g.scan_timestamp ≥ b.scan_timestamp then some g else some b)
    none

/-- The JSON body `scanQRCode` answers with (the fields the claims
mention; `logId` is the appended entry itself). -/
structure ScanResponse where
  allowed : Bool
  message : String
  validationStatus : VStatus
  deriving Repr, DecidableEq

/-- The message set by the ENTRY sequencing check in `scanQRCode`. -/
def noExitMsg : String := "No exit record found. Entry not allowed."

/-- The `if (validation.valid)` block of `scanQRCode`: starting from the
draft log entry `entry0`, attribute student and application from the
parsed token, run the ENTRY sequencing check against the latest prior log
for the (student, application) pair, and re-check the leave period for
ENTRY; returns the final `validation.valid` flag and the final log
entry. -/
def scanDecision (db : DB) (now : Int) (validation : ValidationResult)
    (entry0 : GateLogEntry) (qrData : QRToken) (actionType : ActionType) :
    Bool × GateLogEntry :=
  match qrData, validation.valid, validation.leave with
  | .parsed data, true, some leave =>
    let e1 := { entry0 with
      student_id := some data.studentId
      leave_application_id := some data.leaveId }
    let step1 : Bool × GateLogEntry :=
      if actionType = .ENTRY then
        match lastLogFor db.gate_logs data.studentId data.leaveId with
        | some lastLog =>
          if lastLog.action_type ≠ .EXIT then
            (false, { e1 with
              validation_status := .INVALID
              validation_message := noExitMsg })
          else (true, e1)
        | none =>
          (false, { e1 with
            validation_status := .INVALID
            validation_message := noExitMsg })
      else (true, e1)
    if actionType = .ENTRY ∧ step1.1 then
      if now > endOfDayMs leave.to_date then
        (false, { step1.2 with
          validation_status := .EXPIRED
          validation_message := "Leave period expired" })
      else step1
    else step1
  | _, _, _ => (validation.valid, entry0)

/-- `scanQRCode` from `qrController.js`, for a well-formed request (token
present, `actionType` EXIT or ENTRY — the 400 guards are discharged by
typing). Validates the credential, attributes student/application on the
draft log entry only when validation succeeded, runs the ENTRY sequencing
check and the ENTRY leave-period re-check (`scanDecision`), then appends
exactly one `gate_logs` row and answers with
`allowed = validation.valid`. -/
def scanQRCode (db : DB) (now : Int) (secret : String) (userId : Nat)
    (qrData : QRToken) (actionType : ActionType) (location : Option String) :
    ScanResponse × DB :=
  let validation := validateQRCode db now secret qrData
  let entry0 : GateLogEntry :=
    { student_id := none
      leave_application_id := none
      action_type := actionType
      scanned_by := userId
      scan_timestamp := now
      qr_code_data := some qrData
      validation_status := if validation.valid then .VALID else .INVALID
      validation_message := validation.message
      location := location.getD "Main Gate" }
  let final := scanDecision db now validation entry0 qrData actionType
  ({ allowed := final.1
     message := final.2.validation_message
     validationStatus := final.2.validation_status },
   { db with gate_logs := db.gate_logs ++ [final.2] })

/-- Error outcomes of the leave-controller handlers (each variant names
the non-200 response the handler sends; a thrown `null` dereference is
the corresponding not-found error). -/
inductive LeaveError where
  | studentNotFound
  | staffNotFound
  | parentNotFound
  | notFound
  | invalidRange
  | insufficientLeadTime
  | overlapping
  | notApproved
  | principalRequired
  | nonAdvancingDate
  | internalError
  deriving Repr, DecidableEq

/-- The validated decision body of the approval handlers
(`action: 'approve' | 'reject'`; the 400 guard on other values is
discharged by typing). -/
inductive DecideAction where
  | approve
  | reject
  deriving Repr, DecidableEq

/-- `daysBetween` from `helpers.js`:
`Math.ceil(|end - start| / day) + 1` on midnight instants, which for day
numbers is `|b - a| + 1`. -/
def daysBetween (a b : Int) : Int := (b - a).natAbs + 1

/-- `DATEDIFF(to_date, from_date) + 1`, the inclusive duration used by
the approval routing. -/
def sqlDuration (l : LeaveApplication) : Int := l.to_date - l.from_date + 1

/-- AUTO_INCREMENT id for an insert into a table whose existing ids are
`ids`. -/
def nextId (ids : List Nat) : Nat := ids.foldr max 0 + 1

/-- The three-clause interval test of the overlap query in `applyLeave`:
with `[af, at]` the stored interval and `[bf, bt]` the requested one,
`(? BETWEEN from_date AND to_date)` for the requested from-date and
to-date, or `(from_date BETWEEN ? AND ?)` for the stored from-date. -/
def overlapClause (af aT bf bt : Int) : Bool :=
  decide ((af ≤ bf ∧ bf ≤ aT) ∨ (af ≤ bt ∧ bt ≤ aT) ∨ (bf ≤ af ∧ af ≤ bt))

/-- The row predicate of the overlap query: same student, status in
(PENDING, APPROVED_DW, APPROVED_PRINCIPAL), and the three-clause
interval test. -/
def overlapsRequest (sid : Nat) (bf bt : Int) (l : LeaveApplication) : Bool :=
  decide (l.student_id = sid ∧
    (l.status = .PENDING ∨ l.status = .APPROVED_DW ∨ l.status = .APPROVED_PRINCIPAL)) &&
  overlapClause l.from_date l.to_date bf bt

/-- `applyLeave` from `leaveController.js`: resolve the student from the
authenticated user, reject `to < from`, reject fewer than
`minAdvanceDays` days of lead time (`Math.ceil((from - today)/day)` is
exact on day numbers), reject when the overlap query finds a row, else
insert the application in PENDING. Returns the new id, the `daysBetween`
duration and the `requiresPrincipalApproval` flag of the 201 body. -/
def applyLeave (db : DB) (today : Int) (minAdvanceDays maxDays : Int) (userId : Nat)
    (fromDate toDate : Int) (reason : String)
    (destination contact : Option String) (leaveType : Option String) :
    Except LeaveError (DB × Nat × Int × Bool) :=
  match db.students.find? (fun s => decide (s.user_id = userId)) with
  | none => .error .studentNotFound
  | some student =>
    if toDate < fromDate then .error .invalidRange
    else if fromDate - today < minAdvanceDays then .error .insufficientLeadTime
    else if (db.leaves.find? (overlapsRequest student.id fromDate toDate)).isSome then
      .error .overlapping
    else
      let duration := daysBetween fromDate toDate
      let leaveId := nextId (db.leaves.map (·.id))
      let newLeave : LeaveApplication :=
        { id := leaveId
          student_id := student.id
          leave_type := leaveType.getD "REGULAR"
          from_date := fromDate
          to_date := toDate
          reason := reason
          destination := destination
          contact_during_leave := contact
          status := .PENDING
          approved_by_dw := none
          approved_by_principal := none
          dw_remarks := none
          principal_remarks := none
          dw_approved_at := none
          principal_approved_at := none
          qr_code_generated := false
          qr_code_data := none
          qr_code_expires_at := none }
      .ok ({ db with leaves := db.leaves ++ [newLeave] },
           leaveId, duration, duration > maxDays)

/-- `generateQRCodeData` from `helpers.js`: the claim set serialized into
the token. `validFrom` copies the `qr_code_expires_at` the passed
application row currently holds. -/
def generateQRCodeData (leave : LeaveApplication) (student : Student)
    (secret : String) : QRPayload :=
  { leaveId := leave.id
    studentId := student.id
    collegeId := student.college_id
    studentName := student.student_name
    fromDate := dateStr leave.from_date
    toDate := dateStr leave.to_date
    validFrom := leave.qr_code_expires_at
    hash := generateHash ⟨leave.id, student.id, dateStr leave.from_date⟩ secret }

/-- `getLeaveQRCode` from `leaveController.js`: resolve student and
application, require an APPROVED_* status, and on first request compute
`qr_code_expires_at = from_date - validityHours` (default 2h) and cache
the generated token on the row; later requests return the cached token
unchanged. Returns the token and the `validFrom` of the response body. -/
def getLeaveQRCode (db : DB) (validityHours : Int) (secret : String)
    (userId : Nat) (leaveId : Nat) :
    Except LeaveError (DB × QRPayload × Option Int) :=
  match db.students.find? (fun s => decide (s.user_id = userId)) with
  | none => .error .studentNotFound
  | some student =>
    match db.leaves.find? (fun l => decide (l.id = leaveId ∧ l.student_id = student.id)) with
    | none => .error .notFound
    | some leave =>
      if leave.status ≠ .APPROVED_DW ∧ leave.status ≠ .APPROVED_PRINCIPAL then
        .error .notApproved
      else if leave.qr_code_generated = false then
        let qrValidFrom := dayStartMs leave.from_date - validityHours * 3600000
        let qrData := generateQRCodeData leave student secret
        let leaves' := db.leaves.map (fun l =>
          if l.id = leaveId then
            { l with
              qr_code_data := some qrData
              qr_code_generated := true
              qr_code_expires_at := some qrValidFrom }
          else l)
        .ok ({ db with leaves := leaves' }, qrData, some qrValidFrom)
      else
        match leave.qr_code_data with
        | some d => .ok (db, d, leave.qr_code_expires_at)
        | none => .error .internalError

/-- `processLeaveByDW` from `leaveController.js`: resolve the staff row,
load the PENDING application (joined to its student), reject with the
"Principal approval required" 400 when `DATEDIFF + 1 > maxDays`, else
set the tier status and the deputy approval fields. -/
def processLeaveByDW (db : DB) (now : Int) (maxDays : Int) (userId : Nat)
    (leaveId : Nat) (action : DecideAction) (remarks : Option String) :
    Except LeaveError (DB × LeaveStatus) :=
  match db.staff.find? (fun st => decide (st.user_id = userId)) with
  | none => .error .staffNotFound
  | some staffRow =>
    match db.leaves.find? (fun l => decide (l.id = leaveId ∧ l.status = .PENDING)) with
    | none => .error .notFound
    | some leave =>
      if (db.students.find? (fun s => decide (s.id = leave.student_id))).isNone then
        .error .notFound
      else if sqlDuration leave > maxDays then .error .principalRequired
      else
        let newStatus : LeaveStatus :=
          match action with
          | .approve => .APPROVED_DW
          | .reject => .REJECTED
        let leaves' := db.leaves.map (fun l =>
          if l.id = leaveId then
            { l with
              status := newStatus
              approved_by_dw := some staffRow.id
              dw_remarks := remarks
              dw_approved_at := some now }
          else l)
        .ok ({ db with leaves := leaves' }, newStatus)

/-- `processLeaveByPrincipal` from `leaveController.js`: resolve the
staff row, load the PENDING application (joined to its student), and set
the tier status and the principal approval fields — the handler performs
no duration check. -/
def processLeaveByPrincipal (db : DB) (now : Int) (userId : Nat)
    (leaveId : Nat) (action : DecideAction) (remarks : Option String) :
    Except LeaveError (DB × LeaveStatus) :=
  match db.staff.find? (fun st => decide (st.user_id = userId)) with
  | none => .error .staffNotFound
  | some staffRow =>
    match db.leaves.find? (fun l => decide (l.id = leaveId ∧ l.status = .PENDING)) with
    | none => .error .notFound
    | some leave =>
      if (db.students.find? (fun s => decide (s.id = leave.student_id))).isNone then
        .error .notFound
      else
        let newStatus : LeaveStatus :=
          match action with
          | .approve => .APPROVED_PRINCIPAL
          | .reject => .REJECTED
        let leaves' := db.leaves.map (fun l =>
          if l.id = leaveId then
            { l with
              status := newStatus
              approved_by_principal := some staffRow.id
              principal_remarks := remarks
              principal_approved_at := some now }
          else l)
        .ok ({ db with leaves := leaves' }, newStatus)

/-- `requestEmergencyExtension` from `leaveController.js`: resolve the
parent row, load the application whose student's `parent_id` matches the
requesting user (as written, the query compares `s.parent_id` to the
user id), require an APPROVED_* status, require a strictly later end
date, then insert the extension in PENDING. -/
def requestEmergencyExtension (db : DB) (userId : Nat) (leaveId : Nat)
    (extendedToDate : Int) (reason : String) : Except LeaveError (DB × Nat) :=
  match db.parents.find? (fun p => decide (p.user_id = userId)) with
  | none => .error .parentNotFound
  | some parentRow =>
    match db.leaves.find? (fun l => decide (l.id = leaveId ∧
        (db.students.find? (fun s => decide (s.id = l.student_id ∧
          s.parent_id = some userId))).isSome)) with
    | none => .error .notFound
    | some leave =>
      if leave.status ≠ .APPROVED_DW ∧ leave.status ≠ .APPROVED_PRINCIPAL then
        .error .notApproved
      else if extendedToDate ≤ leave.to_date then .error .nonAdvancingDate
      else
        let extId := nextId (db.extensions.map (·.id))
        let newExt : EmergencyExtension :=
          { id := extId
            leave_application_id := leaveId
            requested_by_parent := parentRow.id
            extended_to_date := extendedToDate
            reason := reason
            status := .PENDING
            approved_by := none
            remarks := none
            approved_at := none }
        .ok ({ db with extensions := db.extensions ++ [newExt] }, extId)

/-- The PENDING-extension lookup of `processEmergencyExtension` (the
extension row joined to its application, the application's student and
the requesting parent). -/
def findPendingExtension (db : DB) (extId : Nat) : Option EmergencyExtension :=
  db.extensions.find? (fun e => decide (e.id = extId ∧ e.status = .PENDING ∧
    (db.leaves.find? (fun l => decide (l.id = e.leave_application_id ∧
      (db.students.find? (fun s => decide (s.id = l.student_id))).isSome))).isSome ∧
    (db.parents.find? (fun p => decide (p.id = e.requested_by_parent))).isSome))

/-- `processEmergencyExtension` from `leaveController.js`: resolve the
staff row, load the PENDING extension with its joins, set the extension's
status and approval fields, and — only on approve — set the parent
application's `to_date` to the extension's `extended_to_date`. -/
def processEmergencyExtension (db : DB) (now : Int) (userId : Nat)
    (extId : Nat) (action : DecideAction) (remarks : Option String) :
    Except LeaveError DB :=
  match db.staff.find? (fun st => decide (st.user_id = userId)) with
  | none => .error .staffNotFound
  | some staffRow =>
    match findPendingExtension db extId with
    | none => .error .notFound
    | some ext =>
      let newStatus : ExtStatus :=
        match action with
        | .approve => .APPROVED
        | .reject => .REJECTED
      let extensions' := db.extensions.map (fun e =>
        if e.id = extId then
          { e with
            status := newStatus
            approved_by := some staffRow.id
            remarks := remarks
            approved_at := some now }
        else e)
      let leaves' :=
        match action with
        | .approve =>
          db.leaves.map (fun l =>
            if l.id = ext.leave_application_id then
              { l with to_date := ext.extended_to_date }
            else l)
        | .reject => db.leaves
      .ok { db with extensions := extensions', leaves := leaves' }

/-- `manualEntryExit` from `qrController.js`: look the student up by
college id, then append a MANUAL gate log carrying the reason; no
credential or application is involved. -/
def manualEntryExit (db : DB) (now : Int) (userId : Nat)
    (collegeId : String) (actionType : ActionType) (reason : String) :
    Except LeaveError DB :=
  match db.students.find? (fun s => decide (s.college_id = collegeId)) with
  | none => .error .notFound
  | some student =>
    let actionName : String :=
      match actionType with
      | .EXIT => "EXIT"
      | .ENTRY => "ENTRY"
    let entry : GateLogEntry :=
      { student_id := some student.id
        leave_application_id := none
        action_type := actionType
        scanned_by := userId
        scan_timestamp := now
        qr_code_data := none
        validation_status := .MANUAL
        validation_message := "Manual " ++ actionName ++ ": " ++ reason
        location := "Main Gate" }
    .ok { db with gate_logs := db.gate_logs ++ [entry] }

/-- The WHERE clause of `getStudentsOutside`, for an exit-candidate row
`g`: a VALID EXIT, inner-joined to an existing student and to an existing
application with `to_date >= CURDATE()`, whose student id is NOT IN the
set of student ids of strictly later ENTRY rows. Per SQL three-valued
logic, `NOT IN` holds only when no later ENTRY row carries the same
student id and no later ENTRY row carries a NULL student id. -/
def outsideRowPred (db : DB) (today : Int) (g : GateLogEntry) : Bool :=
  decide (g.action_type = .EXIT ∧ g.validation_status = .VALID ∧
    (∃ s ∈ db.students, some s.id = g.student_id) ∧
    (∃ l ∈ db.leaves, some l.id = g.leave_application_id ∧ today ≤ l.to_date) ∧
    ¬ ∃ g2 ∈ db.gate_logs, g2.action_type = .ENTRY ∧
      g2.scan_timestamp > g.scan_timestamp ∧
      (g2.student_id = g.student_id ∨ g2.student_id = none))

/-- `getStudentsOutside` from `qrController.js`, projected to the
DISTINCT set of student ids the query returns. -/
def studentsOutside (db : DB) (today : Int) : List Nat :=
  ((db.gate_logs.filter (outsideRowPred db today)).filterMap (·.student_id)).dedup

/-- Replacing the character at position `i` of a string: the single
character change of the tamper-detection claim. -/
def setCharAt (s : String) (i : Nat) (c : Char) : String := ⟨s.data.set i c⟩

/-- The presence predicate exactly as the claim words it (kept for
comparison with the implemented query): the student's most recent
VALID-status gate-log entry has action kind EXIT, no later VALID ENTRY
exists for the same application (for manual entries, no later entry of
any status), and the associated application's `toDate` has not yet
passed. -/
def claimedOutside (db : DB) (today : Int) (sid : Nat) : Bool :=
  decide (∃ g ∈ db.gate_logs, g.student_id = some sid ∧
    g.validation_status = .VALID ∧ g.action_type = .EXIT ∧
    (∀ g2 ∈ db.gate_logs, g2.student_id = some sid →
      g2.validation_status = .VALID → g2.scan_timestamp ≤ g.scan_timestamp) ∧
    (∀ g2 ∈ db.gate_logs, g2.student_id = some sid →
      g2.action_type = .ENTRY → g2.validation_status = .VALID →
      g2.leave_application_id = g.leave_application_id →
      g2.scan_timestamp ≤ g.scan_timestamp) ∧
    (g.validation_status = .MANUAL →
      ∀ g2 ∈ db.gate_logs, g2.student_id = some sid →
        g2.scan_timestamp ≤ g.scan_timestamp) ∧
    (∃ l ∈ db.leaves, some l.id = g.leave_application_id ∧ today ≤ l.to_date))

/-- The (id, from_date, to_date) projection of the applications table:
the identity-and-date-range view the frame conditions speak about. -/
def leaveDatesOf (ls : List LeaveApplication) : List (Nat × Int × Int) :=
  ls.map (fun l => (l.id, l.from_date, l.to_date))

deriving instance DecidableEq for Except

/-! Concrete fixtures used by the counterexamples and witnesses. Dates
are day numbers (leave window is days 100 to 102), instants are ms. -/

def exSecret : String := "k"

def exStudent : Student :=
  { id := 1, user_id := 11, college_id := "CID1", student_name := "A",
    parent_id := some 41 }

def exStaff : StaffMember := { id := 3, user_id := 31 }

def exParent : ParentRec := { id := 5, user_id := 41 }

def exLeave : LeaveApplication :=
  { id := 10, student_id := 1, leave_type := "REGULAR",
    from_date := 100, to_date := 102, reason := "home",
    destination := none, contact_during_leave := none,
    status := .APPROVED_DW,
    approved_by_dw := some 3, approved_by_principal := none,
    dw_remarks := none, principal_remarks := none,
    dw_approved_at := some 0, principal_approved_at := none,
    qr_code_generated := true,
    qr_code_data := none,
    qr_code_expires_at := some (dayStartMs 100 - 7200000) }

def exTok : QRToken := .parsed (generateQRCodeData exLeave exStudent exSecret)

def exDB0 : DB :=
  { students := [exStudent], staff := [exStaff], parents := [exParent],
    leaves := [exLeave], extensions := [], gate_logs := [] }

/-- A prior EXIT log for (student 1, application 10) whose validation
status is INVALID, not VALID. -/
def exLogExitInvalid : GateLogEntry :=
  { student_id := some 1, leave_application_id := some 10,
    action_type := .EXIT, scanned_by := 31, scan_timestamp := 1,
    qr_code_data := some exTok, validation_status := .INVALID,
    validation_message := "x", location := "Main Gate" }

def exDB1 : DB := { exDB0 with gate_logs := [exLogExitInvalid] }

def exLeaveShortPending : LeaveApplication :=
  { exLeave with
    id := 12
    status := .PENDING
    qr_code_generated := false
    qr_code_expires_at := none
    approved_by_dw := none }

def exDB2 : DB := { exDB0 with leaves := [exLeaveShortPending] }

def exLeaveLongPending : LeaveApplication :=
  { exLeaveShortPending with id := 13, to_date := 120 }

def exDB2L : DB := { exDB0 with leaves := [exLeaveLongPending] }

def exLogExitValid : GateLogEntry :=
  { student_id := some 1, leave_application_id := some 10,
    action_type := .EXIT, scanned_by := 31, scan_timestamp := 1,
    qr_code_data := some exTok, validation_status := .VALID,
    validation_message := "Valid QR code", location := "Main Gate" }

/-- A later ENTRY log for the same student and application with INVALID
validation status. -/
def exLogEntryInvalid : GateLogEntry :=
  { student_id := some 1, leave_application_id := some 10,
    action_type := .ENTRY, scanned_by := 31, scan_timestamp := 2,
    qr_code_data := some exTok, validation_status := .INVALID,
    validation_message := "x", location := "Main Gate" }

def exDB4 : DB := { exDB0 with gate_logs := [exLogExitValid, exLogEntryInvalid] }

/-- The honest token with one character of its `fromDate` field replaced,
the embedded tag left unchanged. -/
def exTamperTok : QRToken :=
  .parsed { generateQRCodeData exLeave exStudent exSecret with
    fromDate := setCharAt (generateQRCodeData exLeave exStudent exSecret).fromDate 0 'X' }

def exLeavePend6 : LeaveApplication :=
  { exLeaveShortPending with id := 14 }

def exDB6 : DB := { exDB0 with leaves := [exLeavePend6] }

def exLeaveNoQR : LeaveApplication :=
  { exLeave with
    qr_code_generated := false
    qr_code_data := none
    qr_code_expires_at := none }

def exDB7 : DB := { exDB0 with leaves := [exLeaveNoQR] }

/-- `exDB7` after the first credential request: the token and its
`validNotBefore` (day 100 midnight minus 2 hours, in ms) cached on the
application row. -/
def exDB7ok : DB :=
  { exDB7 with leaves := [{ exLeaveNoQR with
      qr_code_data := some (generateQRCodeData exLeaveNoQR exStudent exSecret)
      qr_code_generated := true
      qr_code_expires_at := some 8632800000 }] }

def exExt : EmergencyExtension :=
  { id := 50, leave_application_id := 10, requested_by_parent := 5,
    extended_to_date := 105, reason := "emergency", status := .PENDING,
    approved_by := none, remarks := none, approved_at := none }

def exDB8 : DB := { exDB0 with extensions := [exExt] }

/-! Helper lemmas shared across the claim theorems. -/

lemma overlapClause_iff_inter (af aT bf bt : Int) (h1 : af ≤ aT) (h2 : bf ≤ bt) :
    overlapClause af aT bf bt = true ↔ (af ≤ bt ∧ bf ≤ aT) := by
  simp only [overlapClause, decide_eq_true_eq]
  omega

lemma validateQRCode_eq_valid (db : DB) (now : Int) (secret : String)
    (data : QRPayload) (leave : LeaveApplication)
    (hhash : data.hash = generateHash ⟨data.leaveId, data.studentId, data.fromDate⟩ secret)
    (hfind : findLeaveJoin db data.leaveId data.studentId = some leave)
    (happr : leave.status = .APPROVED_DW ∨ leave.status = .APPROVED_PRINCIPAL)
    (hnb : leave.qr_code_expires_at.getD 0 ≤ now)
    (hexp : now ≤ endOfDayMs leave.to_date) :
    validateQRCode db now secret (.parsed data) = ⟨true, "Valid QR code", some leave⟩ := by
  have h1 : ¬(data.hash ≠ generateHash ⟨data.leaveId, data.studentId, data.fromDate⟩ secret) := by
    simp [hhash]
  have h2 : ¬(leave.status ≠ .APPROVED_DW ∧ leave.status ≠ .APPROVED_PRINCIPAL) := by
    rcases happr with h | h <;> simp [h]
  simp only [validateQRCode]
  rw [if_neg h1, hfind]
  simp only [if_neg h2, if_neg (not_lt.mpr hnb), if_neg (not_lt.mpr hexp)]

lemma validateQRCode_valid_eq (db : DB) (now : Int) (secret : String) (t : QRToken)
    (hv : (validateQRCode db now secret t).valid = true) :
    ∃ data lv, t = .parsed data ∧
      validateQRCode db now secret t = ⟨true, "Valid QR code", some lv⟩ ∧
      findLeaveJoin db data.leaveId data.studentId = some lv ∧
      now ≤ endOfDayMs lv.to_date := by
  cases t with
  | malformed raw => simp [validateQRCode] at hv
  | parsed data =>
    simp only [validateQRCode] at hv
    split at hv
    · simp at hv
    · rename_i hne
      split at hv
      · simp at hv
      · rename_i lv heq
        split at hv
        · simp at hv
        · rename_i hst
          split at hv
          · simp at hv
          · rename_i hnb
            split at hv
            · simp at hv
            · rename_i hexp
              have hhash : data.hash =
                  generateHash ⟨data.leaveId, data.studentId, data.fromDate⟩ secret := by
                by_contra hc
                exact hne hc
              have happr : lv.status = .APPROVED_DW ∨ lv.status = .APPROVED_PRINCIPAL := by
                by_cases h1 : lv.status = .APPROVED_DW
                · exact Or.inl h1
                · by_cases h2 : lv.status = .APPROVED_PRINCIPAL
                  · exact Or.inr h2
                  · exact absurd ⟨h1, h2⟩ hst
              refine ⟨data, lv, rfl, ?_, heq, by omega⟩
              exact validateQRCode_eq_valid db now secret data lv hhash heq happr
                (by omega) (by omega)

lemma validateQRCode_expired (db : DB) (now : Int) (secret : String)
    (data : QRPayload) (leave : LeaveApplication)
    (hhash : data.hash = generateHash ⟨data.leaveId, data.studentId, data.fromDate⟩ secret)
    (hfind : findLeaveJoin db data.leaveId data.studentId = some leave)
    (happr : leave.status = .APPROVED_DW ∨ leave.status = .APPROVED_PRINCIPAL)
    (hnb : leave.qr_code_expires_at.getD 0 ≤ now)
    (hexp : endOfDayMs leave.to_date < now) :
    validateQRCode db now secret (.parsed data) =
      ⟨false, "Leave period expired", none⟩ := by
  have h1 : ¬(data.hash ≠ generateHash ⟨data.leaveId, data.studentId, data.fromDate⟩ secret) := by
    simp [hhash]
  have h2 : ¬(leave.status ≠ .APPROVED_DW ∧ leave.status ≠ .APPROVED_PRINCIPAL) := by
    rcases happr with h | h <;> simp [h]
  simp only [validateQRCode]
  rw [if_neg h1, hfind]
  simp only [if_neg h2, if_neg (not_lt.mpr hnb), if_pos hexp]

lemma scanDecision_fields (db : DB) (now : Int) (v : ValidationResult)
    (e0 : GateLogEntry) (t : QRToken) (a : ActionType) :
    (scanDecision db now v e0 t a).2.action_type = e0.action_type ∧
    (scanDecision db now v e0 t a).2.scanned_by = e0.scanned_by ∧
    (scanDecision db now v e0 t a).2.scan_timestamp = e0.scan_timestamp ∧
    (scanDecision db now v e0 t a).2.qr_code_data = e0.qr_code_data ∧
    (scanDecision db now v e0 t a).2.location = e0.location := by
  unfold scanDecision
  split
  · rename_i data leave hval hleave
    dsimp only
    by_cases ha : a = ActionType.ENTRY
    · cases hll : lastLogFor db.gate_logs data.studentId data.leaveId with
      | none => simp [ha, hll]
      | some lastLog =>
        by_cases hex : lastLog.action_type = ActionType.EXIT
        · by_cases hnow : endOfDayMs leave.to_date < now
          · simp [ha, hll, hex, hnow]
          · simp [ha, hll, hex, hnow]
        · simp [ha, hll, hex]
    · simp [ha]
  · simp

lemma scanDecision_allowed_iff (db : DB) (now : Int) (v : ValidationResult)
    (e0 : GateLogEntry) (t : QRToken) (a : ActionType)
    (h0 : e0.validation_status = if v.valid then VStatus.VALID else VStatus.INVALID) :
    ((scanDecision db now v e0 t a).1 = true ↔
      (scanDecision db now v e0 t a).2.validation_status = VStatus.VALID) := by
  unfold scanDecision
  split
  · rename_i data leave hval hleave
    dsimp only
    by_cases ha : a = ActionType.ENTRY
    · cases hll : lastLogFor db.gate_logs data.studentId data.leaveId with
      | none => simp [ha, hll]
      | some lastLog =>
        by_cases hex : lastLog.action_type = ActionType.EXIT
        · by_cases hnow : endOfDayMs leave.to_date < now
          · simp [ha, hll, hex, hnow]
          · simp [ha, hll, hex, hnow, h0, hval]
        · simp [ha, hll, hex]
    · simp [ha, h0, hval]
  · rename_i hfall
    by_cases hv : v.valid <;> simp [hv, h0]

lemma scanDecision_no_expired (db : DB) (now : Int) (v : ValidationResult)
    (e0 : GateLogEntry) (t : QRToken) (a : ActionType)
    (h0 : e0.validation_status = if v.valid then VStatus.VALID else VStatus.INVALID)
    (hb : ∀ lv, v.valid = true → v.leave = some lv → now ≤ endOfDayMs lv.to_date) :
    (scanDecision db now v e0 t a).2.validation_status = VStatus.VALID ∨
    (scanDecision db now v e0 t a).2.validation_status = VStatus.INVALID := by
  unfold scanDecision
  split
  · rename_i data leave hval hleave
    have hble := hb leave hval hleave
    dsimp only
    by_cases ha : a = ActionType.ENTRY
    · cases hll : lastLogFor db.gate_logs data.studentId data.leaveId with
      | none => simp [ha, hll]
      | some lastLog =>
        by_cases hex : lastLog.action_type = ActionType.EXIT
        · by_cases hnow : endOfDayMs leave.to_date < now
          · omega
          · simp [ha, hll, hex, hnow, h0, hval]
        · simp [ha, hll, hex]
    · simp [ha, h0, hval]
  · by_cases hv : v.valid <;> simp [hv, h0]

lemma scanDecision_attribution (db : DB) (now : Int) (v : ValidationResult)
    (e0 : GateLogEntry) (t : QRToken) (a : ActionType) :
    (v.valid = false →
      (scanDecision db now v e0 t a).2.student_id = e0.student_id ∧
      (scanDecision db now v e0 t a).2.leave_application_id = e0.leave_application_id) ∧
    (∀ data lv, t = .parsed data → v.valid = true → v.leave = some lv →
      (scanDecision db now v e0 t a).2.student_id = some data.studentId ∧
      (scanDecision db now v e0 t a).2.leave_application_id = some data.leaveId) := by
  unfold scanDecision
  split
  · rename_i data leave hval hleave
    constructor
    · intro hfalse
      rw [hval] at hfalse
      exact absurd hfalse (by simp)
    · intro data2 lv2 hparse hv2 hl2
      have hdd : data2 = data := by
        cases hparse
        rfl
      subst hdd
      dsimp only
      by_cases ha : a = ActionType.ENTRY
      · cases hll : lastLogFor db.gate_logs data2.studentId data2.leaveId with
        | none => simp [ha, hll]
        | some lastLog =>
          by_cases hex : lastLog.action_type = ActionType.EXIT
          · by_cases hnow : endOfDayMs leave.to_date < now
            · simp [ha, hll, hex, hnow]
            · simp [ha, hll, hex, hnow]
          · simp [ha, hll, hex]
      · simp [ha]
  · rename_i hfall
    constructor
    · intro hfalse
      simp
    · intro data lv hparse hv2 hl2
      subst hparse
      simp_all

lemma setCharAt_ne (s : String) (i : Nat) (c : Char) (hi : i < s.data.length)
    (hc : c ≠ s.data.get ⟨i, hi⟩) : setCharAt s i c ≠ s := by
  intro heq
  apply hc
  have hdata : s.data.set i c = s.data := congrArg String.data heq
  have h1 : (s.data.set i c).get? i = some c := List.get?_set_eq_of_lt c hi
  rw [hdata, List.get?_eq_get hi] at h1
  exact (Option.some.injEq _ _ ▸ h1).symm

lemma find?_map_of_pred {α : Type} (g : α → α) (p : α → Bool)
    (h : ∀ x, p (g x) = p x) (l : List α) :
    (l.map g).find? p = (l.find? p).map g := by
  induction l with
  | nil => rfl
  | cons x xs ih =>
    simp only [List.map_cons, List.find?_cons]
    rw [h x]
    by_cases hx : p x = true
    · simp [hx]
    · simp only [Bool.not_eq_true] at hx
      simp [hx, ih]

lemma get_map_self {α β : Type} (f : α → β) (l : List α) (i : Nat)
    (hi : i < l.length) (hi2 : i < (l.map f).length) :
    (l.map f).get ⟨i, hi2⟩ = f (l.get ⟨i, hi⟩) := by
  induction l generalizing i with
  | nil => cases hi
  | cons x xs ih =>
    cases i with
    | zero => rfl
    | succ n =>
      exact ih n (Nat.lt_of_succ_lt_succ hi) (by simpa using Nat.lt_of_succ_lt_succ hi2)

lemma leaveDatesOf_map (g : LeaveApplication → LeaveApplication)
    (ls : List LeaveApplication)
    (h : ∀ l, (g l).id = l.id ∧ (g l).from_date = l.from_date ∧
      (g l).to_date = l.to_date) :
    leaveDatesOf (ls.map g) = leaveDatesOf ls := by
  induction ls with
  | nil => rfl
  | cons x xs ih =>
    simp only [leaveDatesOf, List.map_cons, List.map_map] at ih ⊢
    rw [(h x).1, (h x).2.1, (h x).2.2]
    exact congrArg _ ih

lemma leaveDatesOf_append (xs ys : List LeaveApplication) :
    leaveDatesOf (xs ++ ys) = leaveDatesOf xs ++ leaveDatesOf ys :=
  List.map_append _ _ _

/-! The claim theorems. -/

/-- C1 (amended): for an ENTRY scan of a credential that authenticates
and passes all status/time checks, only the ACTION KIND of the most
recent prior gate-log entry for the (student, applicationId) pair is
consulted: the scan is allowed whenever that entry exists and has action
kind EXIT — its validation status is not examined — and is denied with
status INVALID and the no-exit message when no prior entry exists or the
most recent one is not an EXIT. -/
theorem entry_scan_sequencing (db : DB) (now : Int) (secret : String) (u : Nat)
    (loc : Option String) (data : QRPayload) (leave : LeaveApplication)
    (hhash : data.hash = generateHash ⟨data.leaveId, data.studentId, data.fromDate⟩ secret)
    (hfind : findLeaveJoin db data.leaveId data.studentId = some leave)
    (happr : leave.status = .APPROVED_DW ∨ leave.status = .APPROVED_PRINCIPAL)
    (hnb : leave.qr_code_expires_at.getD 0 ≤ now)
    (hexp : now ≤ endOfDayMs leave.to_date) :
    (∀ e, lastLogFor db.gate_logs data.studentId data.leaveId = some e →
      e.action_type = ActionType.EXIT →
      (scanQRCode db now secret u (.parsed data) .ENTRY loc).1 =
        ⟨true, "Valid QR code", VStatus.VALID⟩) ∧
    (lastLogFor db.gate_logs data.studentId data.leaveId = none →
      (scanQRCode db now secret u (.parsed data) .ENTRY loc).1 =
        ⟨false, noExitMsg, VStatus.INVALID⟩) ∧
    (∀ e, lastLogFor db.gate_logs data.studentId data.leaveId = some e →
      e.action_type ≠ ActionType.EXIT →
      (scanQRCode db now secret u (.parsed data) .ENTRY loc).1 =
        ⟨false, noExitMsg, VStatus.INVALID⟩) := by
  have hveq := validateQRCode_eq_valid db now secret data leave hhash hfind happr hnb hexp
  refine ⟨?_, ?_, ?_⟩
  · intro e hll hex
    simp only [scanQRCode, hveq, scanDecision, hll]
    simp [hex, not_lt.mpr hexp]
  · intro hll
    simp only [scanQRCode, hveq, scanDecision, hll]
    simp
  · intro e hll hex
    simp only [scanQRCode, hveq, scanDecision, hll]
    simp [hex]

/-- C1 counterexample: in `exDB1` the most recent prior entry for
(student 1, application 10) is an EXIT whose validation status is
INVALID, yet the ENTRY scan is allowed — refuting the claim that the
prior entry must have status VALID for the entry to be permitted. -/
theorem entry_sequencing_cex :
    lastLogFor exDB1.gate_logs 1 10 = some exLogExitInvalid ∧
    exLogExitInvalid.action_type = ActionType.EXIT ∧
    exLogExitInvalid.validation_status = VStatus.INVALID ∧
    (scanQRCode exDB1 (dayStartMs 100) exSecret 31 exTok .ENTRY none).1.allowed = true := by
  decide

/-- C1 witness: `entry_scan_sequencing` instantiated at `exDB1`, whose
only prior log is an INVALID-status EXIT. -/
theorem entry_sequencing_witness :
    (scanQRCode exDB1 (dayStartMs 100) exSecret 31 exTok .ENTRY none).1 =
      ⟨true, "Valid QR code", VStatus.VALID⟩ :=
  (entry_scan_sequencing exDB1 (dayStartMs 100) exSecret 31 none
    (generateQRCodeData exLeave exStudent exSecret) exLeave rfl (by decide)
    (by decide) (by decide) (by decide)).1 exLogExitInvalid (by decide) (by decide)

/-- C2 (amended): only the deputy tier is guarded by the duration
routing: a deputy-tier Decide on a PENDING application whose inclusive
duration exceeds the threshold fails (principal-approval-required error)
without touching the database, while the principal-tier handler performs
no duration check at all and decides any PENDING application, of any
duration. -/
theorem tier_routing_guard (db : DB) (now maxDays : Int) (u lid : Nat)
    (action : DecideAction) (remarks : Option String)
    (staffRow : StaffMember) (leave : LeaveApplication)
    (hstaff : db.staff.find? (fun st => decide (st.user_id = u)) = some staffRow)
    (hleave : db.leaves.find? (fun l => decide (l.id = lid ∧ l.status = .PENDING)) = some leave)
    (hstu : (db.students.find? (fun s => decide (s.id = leave.student_id))).isSome = true) :
    (sqlDuration leave > maxDays →
      processLeaveByDW db now maxDays u lid action remarks = .error .principalRequired) ∧
    ∃ db2, processLeaveByPrincipal db now u lid action remarks =
      .ok (db2, match action with
        | .approve => LeaveStatus.APPROVED_PRINCIPAL
        | .reject => LeaveStatus.REJECTED) := by
  obtain ⟨s, hs⟩ := Option.isSome_iff_exists.mp hstu
  constructor
  · intro hdur
    simp only [processLeaveByDW, hstaff, hleave, hs]
    simp [if_pos hdur]
  · simp only [processLeaveByPrincipal, hstaff, hleave, hs]
    cases action <;> simp

/-- C2 counterexample: a PENDING application of inclusive duration 3
(≤ threshold 15) is approved by the principal-tier handler and ends in
APPROVED_PRINCIPAL — refuting the claim that a principal-tier Decide on
a within-threshold application fails with WrongTier and leaves it
PENDING. -/
theorem tier_routing_cex :
    sqlDuration exLeaveShortPending = 3 ∧ (3 : Int) ≤ 15 ∧
    exLeaveShortPending.status = LeaveStatus.PENDING ∧
    (processLeaveByPrincipal exDB2 5 31 12 .approve none).isOk = true ∧
    ((processLeaveByPrincipal exDB2 5 31 12 .approve none).toOption.map
      (fun p => p.2)) = some LeaveStatus.APPROVED_PRINCIPAL := by
  decide

/-- C2 witness: `tier_routing_guard` instantiated at a 21-day PENDING
application: the deputy handler rejects it, the principal handler
approves it. -/
theorem tier_routing_witness :
    processLeaveByDW exDB2L 5 15 31 13 .approve none = .error .principalRequired ∧
    ∃ db2, processLeaveByPrincipal exDB2L 5 31 13 .approve none =
      .ok (db2, LeaveStatus.APPROVED_PRINCIPAL) := by
  have h := tier_routing_guard exDB2L 5 15 31 13 .approve none exStaff
    exLeaveLongPending (by decide) (by decide) (by decide)
  exact ⟨h.1 (by decide), h.2⟩

/-- C3 (amended): a scan (EXIT or ENTRY) of an authenticated credential
of an approved application, performed strictly after end-of-day of
`toDate`, is denied with validation status INVALID (not EXPIRED) and the
message "Leave period expired", because `validateQRCode` already rejects
the credential and `scanQRCode` maps every validation failure to INVALID;
moreover, with all clock reads of one request observing the same
instant, no scan ever logs status EXPIRED — the EXPIRED branch of the
ENTRY re-check is unreachable. -/
theorem scan_after_expiry_is_invalid (db : DB) (now : Int) (secret : String)
    (u : Nat) (data : QRPayload) (leave : LeaveApplication) (a : ActionType)
    (loc : Option String)
    (hhash : data.hash = generateHash ⟨data.leaveId, data.studentId, data.fromDate⟩ secret)
    (hfind : findLeaveJoin db data.leaveId data.studentId = some leave)
    (happr : leave.status = .APPROVED_DW ∨ leave.status = .APPROVED_PRINCIPAL)
    (hnb : leave.qr_code_expires_at.getD 0 ≤ now)
    (hexp : endOfDayMs leave.to_date < now) :
    (scanQRCode db now secret u (.parsed data) a loc).1 =
      ⟨false, "Leave period expired", VStatus.INVALID⟩ ∧
    ∀ (db2 : DB) (now2 : Int) (sec2 : String) (u2 : Nat) (t2 : QRToken)
      (a2 : ActionType) (loc2 : Option String),
      (scanQRCode db2 now2 sec2 u2 t2 a2 loc2).1.validationStatus ≠ VStatus.EXPIRED := by
  constructor
  · have hveq := validateQRCode_expired db now secret data leave hhash hfind happr hnb hexp
    simp only [scanQRCode, hveq]
    rfl
  · intro db2 now2 sec2 u2 t2 a2 loc2
    have hb : ∀ lv, (validateQRCode db2 now2 sec2 t2).valid = true →
        (validateQRCode db2 now2 sec2 t2).leave = some lv →
        now2 ≤ endOfDayMs lv.to_date := by
      intro lv hval hleave
      obtain ⟨d0, lv0, ht, hveq, hf0, hb0⟩ := validateQRCode_valid_eq db2 now2 sec2 t2 hval
      rw [hveq] at hleave
      simp only [Option.some.injEq] at hleave
      cases hleave
      exact hb0
    have := scanDecision_no_expired db2 now2 (validateQRCode db2 now2 sec2 t2)
      { student_id := none
        leave_application_id := none
        action_type := a2
        scanned_by := u2
        scan_timestamp := now2
        qr_code_data := some t2
        validation_status := if (validateQRCode db2 now2 sec2 t2).valid then .VALID else .INVALID
        validation_message := (validateQRCode db2 now2 sec2 t2).message
        location := loc2.getD "Main Gate" } t2 a2 rfl hb
    show (scanDecision db2 now2 (validateQRCode db2 now2 sec2 t2) _ t2 a2).2.validation_status ≠
      VStatus.EXPIRED
    rcases this with h | h <;> rw [h] <;> simp

/-- C3 counterexample: scanning the honest token one ms after end-of-day
of `to_date` (day 102) yields status INVALID with message "Leave period
expired", for both ENTRY and EXIT — not the EXPIRED status the claim
requires. -/
theorem scan_expiry_cex :
    exLeave.to_date = 102 ∧
    (scanQRCode exDB0 (endOfDayMs 102 + 1) exSecret 31 exTok .ENTRY none).1 =
      ⟨false, "Leave period expired", VStatus.INVALID⟩ ∧
    (scanQRCode exDB0 (endOfDayMs 102 + 1) exSecret 31 exTok .EXIT none).1 =
      ⟨false, "Leave period expired", VStatus.INVALID⟩ := by
  decide

/-- C3 witness: `scan_after_expiry_is_invalid` instantiated at the
concrete expired scan. -/
theorem scan_expiry_witness :
    (scanQRCode exDB0 (endOfDayMs 102 + 1) exSecret 31 exTok .EXIT none).1 =
      ⟨false, "Leave period expired", VStatus.INVALID⟩ :=
  (scan_after_expiry_is_invalid exDB0 (endOfDayMs 102 + 1) exSecret 31
    (generateQRCodeData exLeave exStudent exSecret) exLeave .EXIT none
    rfl (by decide) (by decide) (by decide) (by decide)).1

/-- C4 (amended): a student id is in `studentsOutside` iff some VALID
EXIT log row for that student joins to an existing student row and to an
application with `to_date` not yet passed, and NO strictly later ENTRY
log — of any validation status, for any application — carries that
student id or a NULL student id (SQL `NOT IN` three-valued semantics). -/
theorem studentsOutside_characterization (db : DB) (today : Int) (sid : Nat) :
    sid ∈ studentsOutside db today ↔
    ∃ g ∈ db.gate_logs, g.student_id = some sid ∧ g.action_type = .EXIT ∧
      g.validation_status = .VALID ∧
      (∃ s ∈ db.students, s.id = sid) ∧
      (∃ l ∈ db.leaves, some l.id = g.leave_application_id ∧ today ≤ l.to_date) ∧
      ¬ ∃ g2 ∈ db.gate_logs, g2.action_type = .ENTRY ∧
        g2.scan_timestamp > g.scan_timestamp ∧
        (g2.student_id = some sid ∨ g2.student_id = none) := by
  simp only [studentsOutside, List.mem_dedup, List.mem_filterMap, List.mem_filter,
    outsideRowPred, decide_eq_true_eq]
  constructor
  · rintro ⟨g, ⟨hg, h1, h2, hstu, happ, hnot⟩, hsid⟩
    rw [hsid] at hstu hnot
    refine ⟨g, hg, hsid, h1, h2, ?_, happ, hnot⟩
    simpa using hstu
  · rintro ⟨g, hg, hsid, h1, h2, hstu, happ, hnot⟩
    refine ⟨g, ⟨hg, h1, h2, ?_, happ, ?_⟩, hsid⟩
    · rw [hsid]
      simpa using hstu
    · rw [hsid]
      exact hnot

/-- C4 counterexample: student 1 has a VALID EXIT (t=1) followed by an
INVALID ENTRY (t=2) for the same application, with `to_date` not passed;
the claim's predicate says the student is outside, but the query excludes
them — a later ENTRY of any status removes the student. -/
theorem presence_cex :
    claimedOutside exDB4 101 1 = true ∧ ¬ (1 ∈ studentsOutside exDB4 101) := by
  decide

/-- C5: replacing any single character of the token's `fromDate` field
(keeping the embedded integrity tag) makes `validateQRCode` fail with
the tampered-credential outcome, since the tag is recomputed over
(leaveId, studentId, fromDate) and compared to the embedded one. -/
theorem tampered_fromDate_rejected (db : DB) (now : Int) (secret : String)
    (d0 : QRPayload) (i : Nat) (c : Char)
    (hhash : d0.hash = generateHash ⟨d0.leaveId, d0.studentId, d0.fromDate⟩ secret)
    (hi : i < d0.fromDate.data.length)
    (hc : c ≠ d0.fromDate.data.get ⟨i, hi⟩) :
    validateQRCode db now secret
        (.parsed { d0 with fromDate := setCharAt d0.fromDate i c }) =
      ⟨false, "QR code tampered or invalid", none⟩ := by
  have hne := setCharAt_ne d0.fromDate i c hi hc
  simp only [validateQRCode]
  rw [if_pos ?hcond]
  case hcond =>
    simp only [hhash, generateHash]
    intro hcon
    have hinp := congrArg Digest.input hcon
    have hfd := congrArg HashInput.fromDate hinp
    exact hne hfd.symm

/-- C5 witness: `tampered_fromDate_rejected` at the honest token of
`exLeave` with the first character of `fromDate` replaced by 'X'. -/
theorem tamper_witness :
    validateQRCode exDB0 (dayStartMs 100) exSecret exTamperTok =
      ⟨false, "QR code tampered or invalid", none⟩ :=
  tampered_fromDate_rejected exDB0 (dayStartMs 100) exSecret
    (generateQRCodeData exLeave exStudent exSecret) 0 'X' rfl (by decide) (by decide)

/-- C6: once the request-shape checks pass, Submit fails with the
overlapping-application error iff some application of the same student
in status PENDING / APPROVED_DW / APPROVED_PRINCIPAL satisfies the
standard closed-interval overlap predicate; and the implementation's
three-clause containment test is equivalent to that predicate on all
well-formed intervals. -/
theorem applyLeave_overlap_iff (db : DB) (today minA maxD : Int) (u : Nat)
    (bf bt : Int) (reason : String) (dest contact ltype : Option String)
    (st : Student)
    (hst : db.students.find? (fun s => decide (s.user_id = u)) = some st)
    (hrange : bf ≤ bt)
    (hlead : minA ≤ bf - today)
    (hwf : ∀ l ∈ db.leaves, l.from_date ≤ l.to_date) :
    ((applyLeave db today minA maxD u bf bt reason dest contact ltype =
      .error .overlapping) ↔
    ∃ l ∈ db.leaves, l.student_id = st.id ∧
      (l.status = .PENDING ∨ l.status = .APPROVED_DW ∨ l.status = .APPROVED_PRINCIPAL) ∧
      l.from_date ≤ bt ∧ bf ≤ l.to_date) ∧
    (∀ af aT bf2 bt2 : Int, af ≤ aT → bf2 ≤ bt2 →
      (overlapClause af aT bf2 bt2 = true ↔ (af ≤ bt2 ∧ bf2 ≤ aT))) := by
  constructor
  · simp only [applyLeave, hst]
    rw [if_neg (by omega : ¬ bt < bf), if_neg (by omega : ¬ (bf - today < minA))]
    by_cases hov : (db.leaves.find? (overlapsRequest st.id bf bt)).isSome = true
    · rw [if_pos hov]
      rw [List.find?_isSome] at hov
      obtain ⟨l, hl, hp⟩ := hov
      simp only [overlapsRequest, overlapClause, Bool.and_eq_true, decide_eq_true_eq] at hp
      obtain ⟨⟨hsid, hstatus⟩, hclause⟩ := hp
      have hwl := hwf l hl
      simp only [true_iff]
      exact ⟨l, hl, hsid, hstatus, by omega, by omega⟩
    · rw [if_neg hov]
      constructor
      · intro h
        exact absurd h (by simp)
      · rintro ⟨l, hl, hsid, hstatus, h1, h2⟩
        exfalso
        apply hov
        rw [List.find?_isSome]
        refine ⟨l, hl, ?_⟩
        have hwl := hwf l hl
        simp only [overlapsRequest, overlapClause, Bool.and_eq_true, decide_eq_true_eq]
        exact ⟨⟨hsid, hstatus⟩, by omega⟩
  · intro af aT bf2 bt2 h1 h2
    exact overlapClause_iff_inter af aT bf2 bt2 h1 h2

/-- C6 witness: with a PENDING application over days [100, 102],
submitting [101, 103] fails with the overlapping-application error, via
`applyLeave_overlap_iff`. -/
theorem overlap_witness :
    applyLeave exDB6 90 2 15 11 101 103 "r" none none none = .error .overlapping := by
  have h := applyLeave_overlap_iff exDB6 90 2 15 11 101 103 "r" none none none
    exStudent (by decide) (by decide) (by decide) (by decide)
  exact h.1.mpr ⟨exLeavePend6, by decide⟩

/-- C7: a second credential request returns exactly the state and token
of the first (idempotence), and when the application had no cached
credential, the `validNotBefore` returned and cached by the first call is
`from_date` midnight minus the configured lead (in ms), computed only
then. -/
theorem getLeaveQRCode_idem (db : DB) (v : Int) (secret : String) (u lid : Nat)
    (db2 : DB) (tok : QRPayload) (vf : Option Int) (s : Student) (l0 : LeaveApplication)
    (hs : db.students.find? (fun x => decide (x.user_id = u)) = some s)
    (hl : db.leaves.find? (fun l => decide (l.id = lid ∧ l.student_id = s.id)) = some l0)
    (hok : getLeaveQRCode db v secret u lid = .ok (db2, tok, vf)) :
    getLeaveQRCode db2 v secret u lid = .ok (db2, tok, vf) ∧
    (l0.qr_code_generated = false →
      vf = some (dayStartMs l0.from_date - v * 3600000)) := by
  have hpl := List.find?_some hl
  simp only [decide_eq_true_eq] at hpl
  simp only [getLeaveQRCode, hs, hl] at hok
  split at hok
  · exact absurd hok (by simp)
  · rename_i hstatus
    split at hok
    · rename_i hgen
      simp only [Except.ok.injEq, Prod.mk.injEq] at hok
      obtain ⟨hdb2, htok, hvf⟩ := hok
      constructor
      · subst hdb2 htok hvf
        simp only [getLeaveQRCode]
        have hstudents :
            ({ db with leaves := db.leaves.map (fun l =>
              if l.id = lid then
                { l with
                  qr_code_data := some (generateQRCodeData l0 s secret)
                  qr_code_generated := true
                  qr_code_expires_at := some (dayStartMs l0.from_date - v * 3600000) }
              else l) } : DB).students = db.students := rfl
        rw [hstudents, hs]
        have hmap := find?_map_of_pred
          (fun l => if l.id = lid then
            { l with
              qr_code_data := some (generateQRCodeData l0 s secret)
              qr_code_generated := true
              qr_code_expires_at := some (dayStartMs l0.from_date - v * 3600000) }
            else l)
          (fun l => decide (l.id = lid ∧ l.student_id = s.id))
          (by
            intro x
            by_cases hid : x.id = lid <;> simp [hid])
          db.leaves
        simp only [hmap, hl, Option.map]
        rw [if_pos hpl.1]
        dsimp only
        rw [if_neg hstatus]
        simp
      · intro _
        exact hvf.symm
    · rename_i hgen
      constructor
      · split at hok
        · rename_i d hdata
          simp only [Except.ok.injEq, Prod.mk.injEq] at hok
          obtain ⟨hdb2, htok, hvf⟩ := hok
          subst hdb2 htok hvf
          simp only [getLeaveQRCode, hs, hl]
          rw [if_neg hstatus, if_neg hgen, hdata]
        · exact absurd hok (by simp)
      · intro hgenf
        simp only [Bool.not_eq_false] at hgen
        rw [hgenf] at hgen
        exact absurd hgen (by simp)

/-- C7 witness: `getLeaveQRCode_idem` at `exDB7` (no cached credential):
the second call returns the identical state and token, and the cached
`validNotBefore` is day-100 midnight minus 2 hours. -/
theorem qr_idem_witness :
    getLeaveQRCode exDB7ok 2 exSecret 11 10 =
      .ok (exDB7ok, generateQRCodeData exLeaveNoQR exStudent exSecret,
        some 8632800000) ∧
    (some 8632800000 : Option Int) =
      some (dayStartMs exLeaveNoQR.from_date - 2 * 3600000) := by
  have h := getLeaveQRCode_idem exDB7 2 exSecret 11 10 exDB7ok
    (generateQRCodeData exLeaveNoQR exStudent exSecret) (some 8632800000)
    exStudent exLeaveNoQR (by decide) (by decide) (by decide)
  exact ⟨h.1, h.2 (by decide)⟩

/-- C8: deciding a PENDING extension with approve marks it APPROVED and,
in the same step, sets the parent application's `to_date` to the
extension's proposed date while preserving every other identity/date
field and every other application; reject marks it REJECTED and leaves
the applications untouched; and every other modelled operation preserves
the (id, from_date, to_date) view of the applications table — extension
approval is the only date-range mutation. -/
theorem extension_decision_and_frame (db : DB) (now : Int) (u extId : Nat)
    (remarks : Option String) (staffRow : StaffMember) (ext : EmergencyExtension)
    (hstaff : db.staff.find? (fun st => decide (st.user_id = u)) = some staffRow)
    (hext : findPendingExtension db extId = some ext) :
    (∃ dbA, processEmergencyExtension db now u extId .approve remarks = .ok dbA ∧
      (∀ e ∈ dbA.extensions, e.id = extId → e.status = ExtStatus.APPROVED) ∧
      dbA.leaves.length = db.leaves.length ∧
      (∀ i (hi : i < db.leaves.length) (hi2 : i < dbA.leaves.length),
        (dbA.leaves.get ⟨i, hi2⟩).id = (db.leaves.get ⟨i, hi⟩).id ∧
        (dbA.leaves.get ⟨i, hi2⟩).from_date = (db.leaves.get ⟨i, hi⟩).from_date ∧
        (dbA.leaves.get ⟨i, hi2⟩).status = (db.leaves.get ⟨i, hi⟩).status ∧
        (dbA.leaves.get ⟨i, hi2⟩).to_date =
          (if (db.leaves.get ⟨i, hi⟩).id = ext.leave_application_id then
            ext.extended_to_date else (db.leaves.get ⟨i, hi⟩).to_date))) ∧
    (∃ dbR, processEmergencyExtension db now u extId .reject remarks = .ok dbR ∧
      dbR.leaves = db.leaves ∧
      (∀ e ∈ dbR.extensions, e.id = extId → e.status = ExtStatus.REJECTED)) ∧
    (∀ today minA maxD u2 bf bt r de co lt db2 res,
      applyLeave db today minA maxD u2 bf bt r de co lt = .ok (db2, res) →
      ∃ rest, leaveDatesOf db2.leaves = leaveDatesOf db.leaves ++ rest) ∧
    (∀ now2 maxD u2 lid a r db2 st2,
      processLeaveByDW db now2 maxD u2 lid a r = .ok (db2, st2) →
      leaveDatesOf db2.leaves = leaveDatesOf db.leaves) ∧
    (∀ now2 u2 lid a r db2 st2,
      processLeaveByPrincipal db now2 u2 lid a r = .ok (db2, st2) →
      leaveDatesOf db2.leaves = leaveDatesOf db.leaves) ∧
    (∀ v sec u2 lid db2 tk vf,
      getLeaveQRCode db v sec u2 lid = .ok (db2, tk, vf) →
      leaveDatesOf db2.leaves = leaveDatesOf db.leaves) ∧
    (∀ now2 sec u2 t a loc,
      leaveDatesOf (scanQRCode db now2 sec u2 t a loc).2.leaves =
        leaveDatesOf db.leaves) ∧
    (∀ now2 u2 cid a r db2, manualEntryExit db now2 u2 cid a r = .ok db2 →
      leaveDatesOf db2.leaves = leaveDatesOf db.leaves) ∧
    (∀ u2 lid d r db2 eid, requestEmergencyExtension db u2 lid d r = .ok (db2, eid) →
      leaveDatesOf db2.leaves = leaveDatesOf db.leaves) ∧
    (∀ now2 u2 e2 r db2, processEmergencyExtension db now2 u2 e2 .reject r = .ok db2 →
      leaveDatesOf db2.leaves = leaveDatesOf db.leaves) := by
  refine ⟨?_, ?_, ?_, ?_, ?_, ?_, ?_, ?_, ?_, ?_⟩
  · simp only [processEmergencyExtension, hstaff, hext]
    refine ⟨_, rfl, ?_, by simp, ?_⟩
    · intro e he hid
      obtain ⟨e0, he0, heq⟩ := List.mem_map.mp he
      by_cases h0 : e0.id = extId
      · rw [← heq]
        simp [h0]
      · rw [← heq] at hid
        simp [h0] at hid
    · intro i hi hi2
      dsimp only at hi2 ⊢
      rw [get_map_self _ _ i hi hi2]
      by_cases h0 : (db.leaves.get ⟨i, hi⟩).id = ext.leave_application_id <;>
        simp only [List.get_eq_getElem] at h0 <;> simp [h0]
  · simp only [processEmergencyExtension, hstaff, hext]
    refine ⟨_, rfl, rfl, ?_⟩
    intro e he hid
    obtain ⟨e0, he0, heq⟩ := List.mem_map.mp he
    by_cases h0 : e0.id = extId
    · rw [← heq]
      simp [h0]
    · rw [← heq] at hid
      simp [h0] at hid
  · intro today minA maxD u2 bf bt r de co lt db2 res h
    simp only [applyLeave] at h
    split at h
    · exact absurd h (by simp)
    · split at h
      · exact absurd h (by simp)
      · split at h
        · exact absurd h (by simp)
        · split at h
          · exact absurd h (by simp)
          · simp only [Except.ok.injEq, Prod.mk.injEq] at h
            obtain ⟨hdb2, _⟩ := h
            subst hdb2
            exact ⟨_, leaveDatesOf_append _ _⟩
  · intro now2 maxD u2 lid a r db2 st2 h
    simp only [processLeaveByDW] at h
    split at h
    · exact absurd h (by simp)
    · split at h
      · exact absurd h (by simp)
      · split at h
        · exact absurd h (by simp)
        · split at h
          · exact absurd h (by simp)
          · simp only [Except.ok.injEq, Prod.mk.injEq] at h
            obtain ⟨hdb2, _⟩ := h
            subst hdb2
            exact leaveDatesOf_map _ _ (by intro l; by_cases h0 : l.id = lid <;> simp [h0])
  · intro now2 u2 lid a r db2 st2 h
    simp only [processLeaveByPrincipal] at h
    split at h
    · exact absurd h (by simp)
    · split at h
      · exact absurd h (by simp)
      · split at h
        · exact absurd h (by simp)
        · simp only [Except.ok.injEq, Prod.mk.injEq] at h
          obtain ⟨hdb2, _⟩ := h
          subst hdb2
          exact leaveDatesOf_map _ _ (by intro l; by_cases h0 : l.id = lid <;> simp [h0])
  · intro v sec u2 lid db2 tk vf h
    simp only [getLeaveQRCode] at h
    split at h
    · exact absurd h (by simp)
    · split at h
      · exact absurd h (by simp)
      · split at h
        · exact absurd h (by simp)
        · split at h
          · simp only [Except.ok.injEq, Prod.mk.injEq] at h
            obtain ⟨hdb2, _⟩ := h
            subst hdb2
            exact leaveDatesOf_map _ _ (by intro l; by_cases h0 : l.id = lid <;> simp [h0])
          · split at h
            · simp only [Except.ok.injEq, Prod.mk.injEq] at h
              obtain ⟨hdb2, _⟩ := h
              subst hdb2
              rfl
            · exact absurd h (by simp)
  · intro now2 sec u2 t a loc
    rfl
  · intro now2 u2 cid a r db2 h
    simp only [manualEntryExit] at h
    split at h
    · exact absurd h (by simp)
    · simp only [Except.ok.injEq] at h
      subst h
      rfl
  · intro u2 lid d r db2 eid h
    simp only [requestEmergencyExtension] at h
    split at h
    · exact absurd h (by simp)
    · split at h
      · exact absurd h (by simp)
      · split at h
        · exact absurd h (by simp)
        · split at h
          · exact absurd h (by simp)
          · simp only [Except.ok.injEq, Prod.mk.injEq] at h
            obtain ⟨hdb2, _⟩ := h
            subst hdb2
            rfl
  · intro now2 u2 e2 r db2 h
    simp only [processEmergencyExtension] at h
    split at h
    · exact absurd h (by simp)
    · split at h
      · exact absurd h (by simp)
      · simp only [Except.ok.injEq] at h
        subst h
        rfl

/-- C8 witness: the approve conjunct of `extension_decision_and_frame`
at a concrete PENDING extension (id 50, proposing day 105) over the
approved application 10. -/
theorem ext_witness :
    ∃ dbA, processEmergencyExtension exDB8 7 31 50 .approve none = .ok dbA ∧
      (∀ e ∈ dbA.extensions, e.id = 50 → e.status = ExtStatus.APPROVED) ∧
      dbA.leaves.length = exDB8.leaves.length ∧
      (∀ i (hi : i < exDB8.leaves.length) (hi2 : i < dbA.leaves.length),
        (dbA.leaves.get ⟨i, hi2⟩).id = (exDB8.leaves.get ⟨i, hi⟩).id ∧
        (dbA.leaves.get ⟨i, hi2⟩).from_date = (exDB8.leaves.get ⟨i, hi⟩).from_date ∧
        (dbA.leaves.get ⟨i, hi2⟩).status = (exDB8.leaves.get ⟨i, hi⟩).status ∧
        (dbA.leaves.get ⟨i, hi2⟩).to_date =
          (if (exDB8.leaves.get ⟨i, hi⟩).id = exExt.leave_application_id then
            exExt.extended_to_date else (exDB8.leaves.get ⟨i, hi⟩).to_date)) :=
  (extension_decision_and_frame exDB8 7 31 50 none exStaff exExt
    (by decide) (by decide)).1

/-- C9: every well-formed scan appends exactly one gate-log entry,
carrying the final status, message, action, actor, location (defaulting
to "Main Gate") and raw token, touching no other relation, and the
response has `allowed = true` iff the logged status is VALID. -/
theorem scan_appends_exactly_one_log (db : DB) (now : Int) (secret : String)
    (u : Nat) (t : QRToken) (a : ActionType) (loc : Option String) :
    ∃ e : GateLogEntry,
      (scanQRCode db now secret u t a loc).2.gate_logs = db.gate_logs ++ [e] ∧
      (scanQRCode db now secret u t a loc).2.students = db.students ∧
      (scanQRCode db now secret u t a loc).2.leaves = db.leaves ∧
      e.action_type = a ∧ e.scanned_by = u ∧ e.scan_timestamp = now ∧
      e.qr_code_data = some t ∧ e.location = loc.getD "Main Gate" ∧
      e.validation_status = (scanQRCode db now secret u t a loc).1.validationStatus ∧
      e.validation_message = (scanQRCode db now secret u t a loc).1.message ∧
      ((scanQRCode db now secret u t a loc).1.allowed = true ↔
        e.validation_status = VStatus.VALID) := by
  obtain ⟨h1, h2, h3, h4, h5⟩ := scanDecision_fields db now (validateQRCode db now secret t)
    { student_id := none
      leave_application_id := none
      action_type := a
      scanned_by := u
      scan_timestamp := now
      qr_code_data := some t
      validation_status := if (validateQRCode db now secret t).valid then .VALID else .INVALID
      validation_message := (validateQRCode db now secret t).message
      location := loc.getD "Main Gate" } t a
  have h6 := scanDecision_allowed_iff db now (validateQRCode db now secret t)
    { student_id := none
      leave_application_id := none
      action_type := a
      scanned_by := u
      scan_timestamp := now
      qr_code_data := some t
      validation_status := if (validateQRCode db now secret t).valid then .VALID else .INVALID
      validation_message := (validateQRCode db now secret t).message
      location := loc.getD "Main Gate" } t a rfl
  exact ⟨_, rfl, rfl, rfl, h1, h2, h3, h4, h5, rfl, rfl, h6⟩

/-- C10 (amended): the appended gate-log entry carries NULL student and
application references exactly when credential validation
(`validateQRCode`) fails; when validation succeeds the entry is
attributed to the token's student and application even if the final
outcome is a denial (ENTRY sequencing failure or the ENTRY expiry
re-check). -/
theorem scan_log_attribution (db : DB) (now : Int) (secret : String) (u : Nat)
    (t : QRToken) (a : ActionType) (loc : Option String) :
    ((validateQRCode db now secret t).valid = false →
      ∃ e, (scanQRCode db now secret u t a loc).2.gate_logs = db.gate_logs ++ [e] ∧
        e.student_id = none ∧ e.leave_application_id = none) ∧
    (∀ data, t = .parsed data → (validateQRCode db now secret t).valid = true →
      ∃ e, (scanQRCode db now secret u t a loc).2.gate_logs = db.gate_logs ++ [e] ∧
        e.student_id = some data.studentId ∧
        e.leave_application_id = some data.leaveId) := by
  have hattr := scanDecision_attribution db now (validateQRCode db now secret t)
    { student_id := none
      leave_application_id := none
      action_type := a
      scanned_by := u
      scan_timestamp := now
      qr_code_data := some t
      validation_status := if (validateQRCode db now secret t).valid then .VALID else .INVALID
      validation_message := (validateQRCode db now secret t).message
      location := loc.getD "Main Gate" } t a
  constructor
  · intro hfalse
    obtain ⟨hs, hl⟩ := hattr.1 hfalse
    exact ⟨_, rfl, hs, hl⟩
  · intro data hparse hvalid
    obtain ⟨d0, lv0, ht, hveq, hf0, hb0⟩ := validateQRCode_valid_eq db now secret t hvalid
    have hd : d0 = data := by
      rw [hparse] at ht
      cases ht
      rfl
    subst hd
    have hleave : (validateQRCode db now secret t).leave = some lv0 := by
      rw [hveq]
    obtain ⟨hs, hl⟩ := hattr.2 d0 lv0 hparse hvalid hleave
    exact ⟨_, rfl, hs, hl⟩

/-- C10 counterexample: an ENTRY scan of a fully valid credential with no
prior exit is denied (final status INVALID), yet the logged entry is
attributed to student 1 — not the NULL reference the claim requires for
every non-VALID outcome. -/
theorem scan_attr_cex :
    (scanQRCode exDB0 (dayStartMs 100) exSecret 31 exTok .ENTRY none).1.validationStatus =
      VStatus.INVALID ∧
    ((scanQRCode exDB0 (dayStartMs 100) exSecret 31 exTok .ENTRY none).2.gate_logs.map
      (fun e => e.student_id)) = [some 1] := by
  decide

/-- C10 witness: `scan_log_attribution` at the denied ENTRY scan: the
entry is attributed to the token's student and application. -/
theorem scan_attr_witness :
    ∃ e, (scanQRCode exDB0 (dayStartMs 100) exSecret 31 exTok .ENTRY none).2.gate_logs =
        exDB0.gate_logs ++ [e] ∧
      e.student_id = some (generateQRCodeData exLeave exStudent exSecret).studentId ∧
      e.leave_application_id = some (generateQRCodeData exLeave exStudent exSecret).leaveId :=
  (scan_log_attribution exDB0 (dayStartMs 100) exSecret 31 exTok .ENTRY none).2
    (generateQRCodeData exLeave exStudent exSecret) rfl (by decide)
